import Mathlib

/-!
Verification of the plan status and schedule derivation logic of the
plan-details screen (source file `src/app/plan-details/[id].tsx`).

The screen's domain logic consists of four functions: `getPlanStatus`,
`getDuration`, `getWorkoutsPerWeek` and `getTemplateName`.  They are embedded
below as pure Lean functions.  JavaScript specifics are modelled explicitly:

* `new Date().toISOString().split('T')[0]` (the system clock read inside
  `getPlanStatus`) becomes an explicit `today : String` argument, and an
  `Ambient` record carries the clock together with the unrelated component
  state, so that independence from that state can be stated;
* `new Date(s).getTime()` on an ISO `YYYY-MM-DD` string is modelled by
  `msPerDay * toEpochDays s`, where `toEpochDays` maps the calendar date to a
  day count from a fixed origin (the 1970 offset cancels in every difference
  the code takes);
* JavaScript falsiness of a `string | null` value (`null`, `undefined`, `""`)
  is modelled on `Option String`: `none` is falsy and `some s` is falsy
  exactly when `s = ""`;
* string comparison (`<`, `>`) is lexicographic, as in JavaScript for the
  all-ASCII ISO date strings involved.
-/

/-- The seven weekday labels, in the order of the source's `daysOfWeek` array. -/
inductive DayOfWeek where
  | monday
  | tuesday
  | wednesday
  | thursday
  | friday
  | saturday
  | sunday
deriving DecidableEq, Repr

/-- The `daysOfWeek` array from the source. -/
def daysOfWeek : List DayOfWeek :=
  [.monday, .tuesday, .wednesday, .thursday, .friday, .saturday, .sunday]

/-- A workout template record: identifier and display name. -/
structure Template where
  id : String
  name : String
deriving DecidableEq, Repr

/-- The mapped `WorkoutPlan` record held in the screen's `plan` state.  The
schedule maps each weekday to an optional template identifier (`none` models
`null`, a rest day). -/
structure Plan where
  id : String
  clientId : String
  trainerId : String
  name : String
  startDate : String
  endDate : String
  schedule : DayOfWeek → Option String
  createdAt : String
  updatedAt : String

/-- The theme colors that `getPlanStatus` attaches to each status. -/
inductive ColorTag where
  | textSecondary
  | success
  | warning
  | primary
deriving DecidableEq, Repr

/-- The `{ status, color }` record returned by `getPlanStatus`. -/
structure StatusResult where
  status : String
  color : ColorTag
deriving DecidableEq, Repr

/-- JavaScript truthiness of a `string | null` schedule slot: `null` and the
empty string are falsy, every other string is truthy. -/
def truthy : Option String → Bool
  | none => false
  | some s => s != ""

/-- Gregorian leap-year test. -/
def isLeapYear (y : Nat) : Bool :=
  (y % 4 == 0 && y % 100 != 0) || y % 400 == 0

/-- Days contained in the years `0, 1, ..., y - 1`: 365 per year plus one for
each leap year among them. -/
def daysBeforeYear (y : Nat) : Nat :=
  365 * y + (y + 3) / 4 - (y + 99) / 100 + (y + 399) / 400

/-- Cumulative days before month `m` (1-based) in a non-leap year. -/
def monthOffset : Nat → Nat
  | 1 => 0
  | 2 => 31
  | 3 => 59
  | 4 => 90
  | 5 => 120
  | 6 => 151
  | 7 => 181
  | 8 => 212
  | 9 => 243
  | 10 => 273
  | 11 => 304
  | 12 => 334
  | _ => 365

/-- Split a character list at each dash, modelling the extraction of the
`YYYY`, `MM` and `DD` fields of an ISO date string. -/
def splitOnDash : List Char → List (List Char)
  | [] => [[]]
  | c :: rest =>
    if c = '-' then [] :: splitOnDash rest
    else
      match splitOnDash rest with
      | [] => [[c]]
      | g :: gs => (c :: g) :: gs

/-- Decimal digit value of a character. -/
def digitVal (c : Char) : Nat := c.toNat - 48

/-- Decimal number denoted by a character list. -/
def digitsToNat (cs : List Char) : Nat :=
  cs.foldl (fun acc c => 10 * acc + digitVal c) 0

/-- Parse an ISO `YYYY-MM-DD` string into a (year, month, day) triple. -/
def parseISO (s : String) : Nat × Nat × Nat :=
  match (splitOnDash s.data).map digitsToNat with
  | [y, m, d] => (y, m, d)
  | _ => (0, 1, 1)

/-- Day number of the calendar date denoted by an ISO date string, counted
from the year-0 origin.  Models `new Date(s).getTime() / 86400000` up to the
constant 1970 offset, which cancels in every difference the code takes. -/
def toEpochDays (s : String) : Nat :=
  let ymd := parseISO s
  daysBeforeYear ymd.1 + monthOffset ymd.2.1
    + (if isLeapYear ymd.1 && decide (3 ≤ ymd.2.1) then 1 else 0)
    + (ymd.2.2 - 1)

/-- Milliseconds per day, the code's `1000 * 60 * 60 * 24`. -/
def msPerDay : Nat := 1000 * 60 * 60 * 24

/-- `getPlanStatus` from the source.  `today` is the ISO date string the code
obtains from the system clock; the date comparisons are lexicographic string
comparisons, exactly as in the source. -/
def getPlanStatus (plan : Option Plan) (today : String) : StatusResult :=
  match plan with
  | none => { status := "Unknown", color := .textSecondary }
  | some p =>
    if p.endDate < today then { status := "Completed", color := .success }
    else if p.startDate > today then { status := "Upcoming", color := .warning }
    else { status := "Active", color := .primary }

/-- `getDuration` from the source: millisecond timestamps of the two parsed
dates, `Math.abs` of their difference, `Math.ceil` of the division by the
milliseconds-per-day constant, then the three formatting branches. -/
def getDuration (plan : Option Plan) : String :=
  match plan with
  | none => ""
  | some p =>
    let startMs := msPerDay * toEpochDays p.startDate
    let endMs := msPerDay * toEpochDays p.endDate
    let diffTime := Int.natAbs ((endMs : Int) - (startMs : Int))
    let diffDays := (diffTime + (msPerDay - 1)) / msPerDay
    if diffDays < 7 then
      toString diffDays ++ " days"
    else if diffDays < 30 then
      let weeks := diffDays / 7
      toString weeks ++ " week" ++ (if weeks > 1 then "s" else "")
    else
      let months := diffDays / 30
      toString months ++ " month" ++ (if months > 1 then "s" else "")

/-- `getWorkoutsPerWeek` from the source:
`Object.values(plan.schedule).filter(Boolean).length`. -/
def getWorkoutsPerWeek (plan : Option Plan) : Nat :=
  match plan with
  | none => 0
  | some p => ((daysOfWeek.map p.schedule).filter truthy).length

/-- `getTemplateName` from the source.  JavaScript falsiness of the id
(`if (!templateId) return 'Rest Day'`) and of the found name
(`template?.name || 'Unknown Template'`) is modelled explicitly. -/
def getTemplateName (templates : List Template) (templateId : Option String) : String :=
  match templateId with
  | none => "Rest Day"
  | some tid =>
    if tid = "" then "Rest Day"
    else
      match templates.find? (fun t => t.id == tid) with
      | some t => if t.name = "" then "Unknown Template" else t.name
      | none => "Unknown Template"

/-- The record delivered by the spec's `classify(plan, today)` contract. -/
structure ClassifyResult where
  status : StatusResult
  duration : String
  workoutsPerWeek : Nat
deriving DecidableEq, Repr

/-- The spec's `classify(plan, today)` contract, bundling the three derived
values. -/
def classify (plan : Option Plan) (today : String) : ClassifyResult :=
  { status := getPlanStatus plan today
    duration := getDuration plan
    workoutsPerWeek := getWorkoutsPerWeek plan }

/-- Ambient state visible to the component: the system clock (read by
`new Date()` inside `getPlanStatus`) together with unrelated component state
(`notes`, `loading`, `showNotesModal`). -/
structure Ambient where
  clock : String
  notes : String
  loading : Bool
  showNotesModal : Bool

/-- `classify` as invoked in the component: the clock read inside the
function is the ambient clock. -/
def runClassify (amb : Ambient) (plan : Option Plan) : ClassifyResult :=
  classify plan amb.clock

/-- `getTemplateName` as invoked in the component: it reads none of the
ambient state. -/
def runResolveName (_amb : Ambient) (templates : List Template)
    (templateId : Option String) : String :=
  getTemplateName templates templateId

/-- The spec's day-difference quantity: absolute day difference between the
two calendar dates. -/
def specDayDiff (startDate endDate : String) : Nat :=
  Int.natAbs ((toEpochDays endDate : Int) - (toEpochDays startDate : Int))

/-- The spec's duration wording, amended to what the code does: the day count
is the exact absolute day difference; the days branch always uses the plural
"days"; the weeks branch (below 30 days) and the months branch divide with
floor by 7 and 30 and append "s" exactly when the unit count exceeds 1. -/
def specDurationText (startDate endDate : String) : String :=
  let n := specDayDiff startDate endDate
  if n < 7 then
    toString n ++ " days"
  else if n < 30 then
    toString (n / 7) ++ " week" ++ (if n / 7 > 1 then "s" else "")
  else
    toString (n / 30) ++ " month" ++ (if n / 30 > 1 then "s" else "")

/-- A plan record with the given dates and an all-rest schedule. -/
def mkPlan (s e : String) : Plan :=
  { id := "plan-1"
    clientId := "client-1"
    trainerId := "trainer-1"
    name := "Strength Block"
    startDate := s
    endDate := e
    schedule := fun _ => none
    createdAt := "2024-01-01"
    updatedAt := "2024-01-01" }

/-- The spec's example schedule: Monday and Wednesday scheduled, all other
days rest. -/
def exampleSchedule : DayOfWeek → Option String
  | .monday => some "t1"
  | .wednesday => some "t2"
  | _ => none

/-- A plan carrying the spec's example schedule. -/
def examplePlan : Plan :=
  { mkPlan "2024-01-01" "2024-03-01" with schedule := exampleSchedule }

/-! ## Shared lemmas -/

/-- `getDuration` on a present plan computes exactly the spec-style duration
text: the millisecond detour and the ceiling division collapse to the exact
absolute day difference. -/
theorem getDuration_eq_specText (p : Plan) :
    getDuration (some p) = specDurationText p.startDate p.endDate := by
  have habs :
      Int.natAbs ((msPerDay * toEpochDays p.endDate : Nat) -
          (msPerDay * toEpochDays p.startDate : Nat) : Int)
        = msPerDay * specDayDiff p.startDate p.endDate := by
    unfold specDayDiff msPerDay
    omega
  have hdiv :
      (msPerDay * specDayDiff p.startDate p.endDate + (msPerDay - 1)) / msPerDay
        = specDayDiff p.startDate p.endDate := by
    unfold msPerDay
    omega
  simp only [getDuration, specDurationText]
  rw [habs, hdiv]

/-! ## Claim theorems -/

/-- Claim C1: for every present plan, `getPlanStatus` classifies with the
tie-break order of the source: the status is "Completed" exactly when the
plan's `endDate` is lexicographically before `today`; "Upcoming" exactly when
the plan has not ended and its `startDate` is after `today`; and "Active"
exactly when `startDate ≤ today ≤ endDate`. -/
theorem getPlanStatus_tiebreak (p : Plan) (today : String) :
    ((getPlanStatus (some p) today).status = "Completed" ↔ p.endDate < today)
    ∧ ((getPlanStatus (some p) today).status = "Upcoming"
        ↔ today ≤ p.endDate ∧ today < p.startDate)
    ∧ ((getPlanStatus (some p) today).status = "Active"
        ↔ p.startDate ≤ today ∧ today ≤ p.endDate) := by
  by_cases h1 : p.endDate < today
  · have h1' : ¬ today ≤ p.endDate := not_le.mpr h1
    simp [getPlanStatus, h1, h1']
  · by_cases h2 : p.startDate > today
    · have h1' : today ≤ p.endDate := not_lt.mp h1
      have h2' : ¬ p.startDate ≤ today := not_le.mpr h2
      simp [getPlanStatus, h1, h2, h1', h2']
    · have h1' : today ≤ p.endDate := not_lt.mp h1
      have h2' : p.startDate ≤ today := not_lt.mp h2
      simp [getPlanStatus, h1, h2, h1', h2']

/-- Claim C5: on an absent plan, `getPlanStatus` returns the "Unknown"
sentinel (with the secondary text color) for every value of today's date; as
a total Lean function it cannot throw. -/
theorem getPlanStatus_absent (today : String) :
    getPlanStatus none today = { status := "Unknown", color := ColorTag.textSecondary } :=
  rfl

/-- Claim C10: on an absent plan, `getDuration` returns the empty string and
`getWorkoutsPerWeek` returns 0; both are total, non-throwing functions. -/
theorem absent_plan_sentinels :
    getDuration none = "" ∧ getWorkoutsPerWeek none = 0 :=
  ⟨rfl, rfl⟩

/-- Claim C2, counterexample: a plan exactly one day long renders "1 days",
not the singular "1 day" the claim's pluralization rule predicts. -/
theorem getDuration_one_day_plural :
    getDuration (some (mkPlan "2024-01-01" "2024-01-02")) = "1 days"
    ∧ getDuration (some (mkPlan "2024-01-01" "2024-01-02")) ≠ "1 day" := by
  exact ⟨by decide, by decide⟩

/-- Claim C2, amended: for every present plan, `getDuration` formats the
exact absolute day difference, formatted as days when below 7, as
floor-by-7 weeks when below 30, and as floor-by-30 months otherwise; the
weeks and months branches append "s" exactly when the unit count exceeds 1,
while the days branch always uses the plural "days" (so a 1-day plan renders
"1 days"). -/
theorem getDuration_amended (p : Plan) :
    getDuration (some p) = specDurationText p.startDate p.endDate :=
  getDuration_eq_specText p

/-- Claim C6: `getDuration` on the spec's test table: two days, two weeks and
three months (the last across the 2024 leap February, 91 days). -/
theorem getDuration_examples :
    getDuration (some (mkPlan "2024-01-01" "2024-01-03")) = "2 days"
    ∧ getDuration (some (mkPlan "2024-01-01" "2024-01-15")) = "2 weeks"
    ∧ getDuration (some (mkPlan "2024-01-01" "2024-04-01")) = "3 months" := by
  refine ⟨by decide, by decide, by decide⟩

/-- Claim C7: `getDuration` is symmetric in the two dates: swapping a plan's
`startDate` and `endDate` yields the identical duration string, because the
day difference is taken as an absolute value. -/
theorem getDuration_swap (p : Plan) :
    getDuration (some { p with startDate := p.endDate, endDate := p.startDate })
      = getDuration (some p) := by
  rw [getDuration_eq_specText, getDuration_eq_specText]
  show specDurationText p.endDate p.startDate = specDurationText p.startDate p.endDate
  have key : specDayDiff p.endDate p.startDate = specDayDiff p.startDate p.endDate := by
    unfold specDayDiff
    omega
  unfold specDurationText
  rw [key]

/-- With pairwise-distinct identifiers, looking up an identifier with `find?`
returns exactly the member carrying it, independently of its position. -/
theorem find_by_id_of_mem (ts : List Template) (tid : String) (t : Template)
    (hdist : ts.Pairwise (fun a b => a.id ≠ b.id)) (hmem : t ∈ ts) (hid : t.id = tid) :
    ts.find? (fun u => u.id == tid) = some t := by
  induction ts with
  | nil => cases hmem
  | cons a rest ih =>
    rcases List.pairwise_cons.mp hdist with ⟨hhead, htail⟩
    by_cases ha : a.id = tid
    · have hta : t = a := by
        rcases List.mem_cons.mp hmem with h | h
        · exact h
        · exact absurd (hid.trans ha.symm).symm (hhead t h)
      rw [hta]
      exact List.find?_cons_of_pos rest (by simp [ha])
    · have hmem' : t ∈ rest := by
        rcases List.mem_cons.mp hmem with h | h
        · exact absurd (h ▸ hid) ha
        · exact h
      rw [List.find?_cons_of_neg rest (by simp [ha])]
      exact ih htail hmem'

/-- With pairwise-distinct identifiers, `find?` by identifier is invariant
under permutation of the template list. -/
theorem find_by_id_perm (ts ts' : List Template) (tid : String)
    (hperm : List.Perm ts ts') (hdist : ts.Pairwise (fun a b => a.id ≠ b.id)) :
    ts.find? (fun u => u.id == tid) = ts'.find? (fun u => u.id == tid) := by
  have hdist' : ts'.Pairwise (fun a b => a.id ≠ b.id) := hperm.pairwise_iff
    (fun h => h ∘ Eq.symm) |>.mp hdist
  cases hx : ts.find? (fun u => u.id == tid) with
  | none =>
    cases hy : ts'.find? (fun u => u.id == tid) with
    | none => rfl
    | some y =>
      have hymem : y ∈ ts := hperm.mem_iff.mpr (List.mem_of_find?_eq_some hy)
      have hyid : y.id = tid := by simpa using List.find?_some hy
      have := List.find?_eq_none.mp hx y hymem
      simp [hyid] at this
  | some x =>
    have hxmem : x ∈ ts := List.mem_of_find?_eq_some hx
    have hxid : x.id = tid := by simpa using List.find?_some hx
    have : ts'.find? (fun u => u.id == tid) = some x :=
      find_by_id_of_mem ts' tid x hdist' (hperm.mem_iff.mp hxmem) hxid
    rw [this]

/-- Claim C3, counterexample: when the looked-up template is found but its
name is the empty string, `getTemplateName` does not return the found
template's name; it falls back to "Unknown Template". -/
theorem getTemplateName_empty_name :
    getTemplateName [{ id := "t1", name := "" }] (some "t1") = "Unknown Template"
    ∧ getTemplateName [{ id := "t1", name := "" }] (some "t1") ≠ "" := by
  exact ⟨by decide, by decide⟩

/-- Claim C3, amended: `getTemplateName` returns "Rest Day" when the
templateId is null/absent; otherwise it looks the templateId up in the
template list by identifier equality and, when a template with a non-empty
name is found, returns that name; when no template in the list has that
identifier it returns "Unknown Template" (as it also does for a found but
empty name); and the order of the template list does not affect the result
when identifiers are distinct. -/
theorem getTemplateName_amended (ts ts' : List Template) (tid : String) (t : Template)
    (hperm : List.Perm ts ts')
    (hdist : ts.Pairwise (fun a b => a.id ≠ b.id)) :
    getTemplateName ts none = "Rest Day"
    ∧ (t ∈ ts → t.id = tid → tid ≠ "" → t.name ≠ "" →
        getTemplateName ts (some tid) = t.name)
    ∧ ((∀ u ∈ ts, u.id ≠ tid) → tid ≠ "" →
        getTemplateName ts (some tid) = "Unknown Template")
    ∧ getTemplateName ts (some tid) = getTemplateName ts' (some tid) := by
  refine ⟨rfl, ?_, ?_, ?_⟩
  · intro hmem hid htid hname
    have hfind := find_by_id_of_mem ts tid t hdist hmem hid
    simp [getTemplateName, htid, hfind, hname]
  · intro hnone htid
    have hfind : ts.find? (fun u => u.id == tid) = none := by
      rw [List.find?_eq_none]
      intro u hu
      simp [hnone u hu]
    simp [getTemplateName, htid, hfind]
  · by_cases htid : tid = ""
    · simp [getTemplateName, htid]
    · have hfind := find_by_id_perm ts ts' tid hperm hdist
      simp [getTemplateName, htid, hfind]

/-- Claim C3, witness: instantiating the amended theorem on the spec's own
example, a reordered two-template list resolves "t1" to "Leg Day". -/
theorem getTemplateName_amended_witness :
    getTemplateName [{ id := "t1", name := "Leg Day" }, { id := "t2", name := "Push Day" }]
      (some "t1") = "Leg Day"
    ∧ getTemplateName [{ id := "t1", name := "Leg Day" }, { id := "t2", name := "Push Day" }]
        (some "t1")
      = getTemplateName [{ id := "t2", name := "Push Day" }, { id := "t1", name := "Leg Day" }]
        (some "t1") := by
  have h := getTemplateName_amended
    [{ id := "t1", name := "Leg Day" }, { id := "t2", name := "Push Day" }]
    [{ id := "t2", name := "Push Day" }, { id := "t1", name := "Leg Day" }]
    "t1" { id := "t1", name := "Leg Day" }
    (List.Perm.swap _ _ _) (by simp)
  exact ⟨h.2.1 (by simp) rfl (by decide) (by decide), h.2.2.2⟩

/-- Claim C9: `getTemplateName` treats every falsy templateId as a rest day
(the empty string behaves like null/undefined), and a found template whose
name is falsy yields "Unknown Template" rather than that name. -/
theorem getTemplateName_falsy (ts : List Template) (tid : String) (t : Template)
    (htid : tid ≠ "")
    (hfind : ts.find? (fun u => u.id == tid) = some t)
    (hname : t.name = "") :
    getTemplateName ts (some "") = "Rest Day"
    ∧ getTemplateName ts none = "Rest Day"
    ∧ getTemplateName ts (some tid) = "Unknown Template" := by
  refine ⟨rfl, rfl, ?_⟩
  simp [getTemplateName, htid, hfind, hname]

/-- Claim C9, witness: the falsy cases at concrete inputs. -/
theorem getTemplateName_falsy_witness :
    getTemplateName [{ id := "t1", name := "" }] (some "") = "Rest Day"
    ∧ getTemplateName [{ id := "t1", name := "" }] none = "Rest Day"
    ∧ getTemplateName [{ id := "t1", name := "" }] (some "t1") = "Unknown Template" :=
  getTemplateName_falsy [{ id := "t1", name := "" }] "t1" { id := "t1", name := "" }
    (by decide) (by decide) rfl

/-- Claim C4: for every present plan, `getWorkoutsPerWeek` counts the weekday
slots of the schedule whose value is non-null and non-falsy; on the spec's
example schedule (Monday "t1", Wednesday "t2", all other days null) it
returns 2. -/
theorem getWorkoutsPerWeek_counts :
    (∀ p : Plan, getWorkoutsPerWeek (some p)
        = daysOfWeek.countP (fun d => truthy (p.schedule d)))
    ∧ getWorkoutsPerWeek (some examplePlan) = 2 := by
  constructor
  · intro p
    show (List.filter truthy (List.map p.schedule daysOfWeek)).length
        = daysOfWeek.countP (fun d => truthy (p.schedule d))
    rw [List.countP_eq_length_filter, List.filter_map, List.length_map]
    rfl
  · decide

/-- Claim C8: `classify` (the status/duration/workouts derivation) and
`getTemplateName` are stateless pure functions of their declared inputs: with
the clock read fixed to the same `today` value, two invocations on equal
plans, template lists and template ids return equal results, whatever the
rest of the ambient component state (notes, loading flag, modal flag) is. -/
theorem classify_resolve_pure (a b : Ambient) (plan : Option Plan)
    (ts : List Template) (tid : Option String)
    (hclock : a.clock = b.clock) :
    runClassify a plan = runClassify b plan
    ∧ runResolveName a ts tid = runResolveName b ts tid := by
  unfold runClassify runResolveName
  rw [hclock]
  exact ⟨rfl, rfl⟩

/-- Claim C8, witness: two ambient states sharing the clock but differing in
every other field classify the example plan identically. -/
theorem classify_resolve_pure_witness :
    runClassify
        { clock := "2024-02-01", notes := "draft", loading := true, showNotesModal := false }
        (some examplePlan)
      = runClassify
        { clock := "2024-02-01", notes := "", loading := false, showNotesModal := true }
        (some examplePlan) :=
  (classify_resolve_pure
    { clock := "2024-02-01", notes := "draft", loading := true, showNotesModal := false }
    { clock := "2024-02-01", notes := "", loading := false, showNotesModal := true }
    (some examplePlan) [] none rfl).1
